import Mathlib

/-!
Verification of the taskflow repository: the graph-based flow engine
(`taskflow/patterns/graph_flow.py`, its behaviour fixed by
`taskflow/tests/unit/test_graph_flow.py` and the spec), and the in-memory
backend (`taskflow/backends/memory.py`) with its exception taxonomy
(`taskflow/exceptions.py`).

The flow-engine module itself (`taskflow/patterns/graph_flow.py`, together
with `taskflow/task.py`, `taskflow/decorators.py` and `taskflow/states.py`)
is not among the provided source files — only its unit tests are — so the
engine definitions below are modelled from the spec (sections 4.2-4.4) and
are marked as such.  The memory backend definitions are translated directly
from `taskflow/backends/memory.py`.
-/

namespace Taskflow

/-- The flow/job states of `taskflow/states.py` as used by the spec section
4.4 and by `MemoryJobBoard.erase` (`states.SUCCESS`, `states.FAILURE`). -/
inductive FlowState
  | pending
  | running
  | reverting
  | success
  | failure
deriving DecidableEq, Repr

/-- The exception taxonomy of `taskflow/exceptions.py`, plus two carriers
for exceptions that are not `TaskFlowException`s: `taskFailure` models an
arbitrary exception escaping a task's unit of work (test
`test_reverting_flow` raises a bare `Exception`), and `valueError` models
Python's builtin `ValueError` (reachable only from a desynchronised
`MemoryLogBook.__delitem__`). -/
inductive Err
  | notFound
  | alreadyExists
  | closedException (msg : String)
  | invalidStateException (msg : String)
  | unclaimableJobException
  | jobNotFound
  | taskFailure (taskName : String)
  | valueError
deriving DecidableEq, Repr

/-- Values flowing between tasks.  Python passes arbitrary objects; the
tests use integers, booleans and lists, and multi-producer fan-in wraps the
collected values in a Python list (`[True, True]`), so a list constructor
doubles as the fan-in carrier exactly as in Python. -/
inductive Val
  | nat (n : Nat)
  | bool (b : Bool)
  | str (s : String)
  | list (vs : List Val)

/-- Modelled from the spec: the Task Descriptor of spec sections 3 and 4.1
(`taskflow/task.py` / `taskflow/decorators.py`, not under the provided
sources).  `succeeds` and `output` model the task's unit of work: when
`succeeds` is `true` the work returns the mapping `output`; when it is
`false` the work raises.  `hasRevert` records whether a compensation
(`revert`) callback was declared. -/
structure Task where
  name : String
  requires : List String
  provides : List String
  succeeds : Bool
  output : List (String × Val)
  hasRevert : Bool

/-- Modelled from the spec: spec section 4.2 step 1, `provides_index` lookup
— the tasks of the flow that declare `n` among their `provides`. -/
def producersOf (tasks : List Task) (n : String) : List Task :=
  tasks.filter (fun t => t.provides.contains n)

/-- Modelled from the spec: spec section 4.2 step 2 — some output name has
more than one producer (the ambiguity rejected when `allow_same_inputs` is
false). -/
def hasAmbiguousProvider (tasks : List Task) : Bool :=
  tasks.any (fun t => t.provides.any (fun n => 1 < (producersOf tasks n).length))

/-- Modelled from the spec: spec section 4.2 step 3 — some task has a
required name with no producer at all in the flow. -/
def hasUnresolvedRequirement (tasks : List Task) : Bool :=
  tasks.any (fun t => t.requires.any (fun n => (producersOf tasks n).isEmpty))

/-- Modelled from the spec: spec section 4.3 — a task is "ready" when it has
indegree zero in the remaining graph, i.e. no task still remaining (itself
included) provides any name it requires. -/
def readyB (remaining : List Task) (t : Task) : Bool :=
  t.requires.all (fun r => remaining.all (fun p => !(p.provides.contains r)))

/-- Modelled from the spec: spec section 4.3, Kahn's-algorithm scheduling —
repeatedly select all currently-ready tasks, append them in original
insertion order (the deterministic tie-break), remove them, and repeat; if
tasks remain but none are ready that is the circular-dependency case.
`fuel` bounds the rounds (each successful round removes at least one task,
so `tasks.length` rounds always suffice). -/
def schedule (fuel : Nat) (done : List Task) (remaining : List Task) :
    Except Err (List Task) :=
  match fuel, remaining with
  | _, [] => .ok done
  | 0, _ :: _ => .error (.invalidStateException "circular dependency")
  | fuel + 1, rem@(_ :: _) =>
    let rdy := rem.filter (readyB rem)
    if rdy.isEmpty then .error (.invalidStateException "circular dependency")
    else schedule fuel (done ++ rdy) (rem.filter (fun t => !(readyB rem t)))

/-- Modelled from the spec: spec section 4.2, `connect` — validate the flow's
task sequence: reject ambiguous providers (when `allow_same_inputs` is
false), unresolved requirements, and circular dependencies, in that order,
each with `InvalidStateException`; on success return the validated graph
(the task arena, per the design notes). -/
def connect (tasks : List Task) (allowSameInputs : Bool) :
    Except Err (List Task) :=
  if !allowSameInputs && hasAmbiguousProvider tasks then
    .error (.invalidStateException "ambiguous provider")
  else if hasUnresolvedRequirement tasks then
    .error (.invalidStateException "unresolved requirement")
  else
    match schedule tasks.length [] tasks with
    | .error e => .error e
    | .ok _ => .ok tasks

/-- Modelled from the spec: spec section 4.3, `order` — validate (as
`connect`) and produce the linear execution order. -/
def order (tasks : List Task) (allowSameInputs : Bool) :
    Except Err (List Task) :=
  match connect tasks allowSameInputs with
  | .error e => .error e
  | .ok _ => schedule tasks.length [] tasks

/-- Modelled from the spec: spec section 4.4 step 3a — the outcome recorded
per completed task: the raw output mapping it returned and the
resolved-input snapshot (the exact values passed to it). -/
structure TaskOutcome where
  raw : List (String × Val)
  resolvedInputs : List (String × Val)

/-- Modelled from the spec: spec section 4.4 step 3d — one compensation
invocation: which task's revert ran, the `result` argument it received (the
task's own raw output mapping), and the owning flow's state observed via
`cause.flow.state` at the moment the callback runs. -/
structure RevertCall where
  taskName : String
  result : List (String × Val)
  causeFlowState : FlowState

/-- Modelled from the spec: the observable outcome of `run(context)` — the
flow's final `state`, its `results` sequence, the compensation invocations
that occurred, and the error re-surfaced to the caller (`none` when `run`
returns normally). -/
structure RunOutcome where
  state : FlowState
  results : List (Task × TaskOutcome)
  reverted : List RevertCall
  error : Option Err

/-- Modelled from the spec: spec section 4.4 step 3a — collect the value(s)
produced for name `r` by already-completed producers, in completion
order. -/
def collectValues (results : List (Task × TaskOutcome)) (r : String) :
    List Val :=
  results.filterMap (fun p => (p.2.raw.find? (fun kv => kv.1 == r)).map (·.2))

/-- Modelled from the spec: spec section 4.4 step 3a — resolve a task's
inputs: a name supplied by exactly one completed producer is passed as the
single value; a name supplied by several is passed as the list of all
collected values in producer-completion order. -/
def resolveInputs (results : List (Task × TaskOutcome)) (reqs : List String) :
    List (String × Val) :=
  reqs.map (fun r =>
    match collectValues results r with
    | [v] => (r, v)
    | vs => (r, .list vs))

/-- Modelled from the spec: spec section 4.4 step 3d — on a task failure the
flow transitions to REVERTING and invokes the compensation of every
completed task in reverse completion order, skipping tasks with no declared
compensation; each compensation receives the task's own raw result and a
cause exposing the owning flow, whose state `st` it observes. -/
def revertAll (st : FlowState) (results : List (Task × TaskOutcome)) :
    List RevertCall :=
  results.reverse.filterMap (fun p =>
    if p.1.hasRevert then some ⟨p.1.name, p.2.raw, st⟩ else none)

/-- Modelled from the spec: spec section 4.4 step 3 — execute the scheduled
tasks in order against the accumulated `results`: resolve inputs, invoke the
unit of work, merge outputs on success; on failure revert (observing the
REVERTING state), settle in FAILURE and re-surface the triggering error. -/
def execTasks (ord : List Task) (results : List (Task × TaskOutcome)) :
    RunOutcome :=
  match ord with
  | [] => ⟨.success, results, [], none⟩
  | t :: rest =>
    let inputs := resolveInputs results t.requires
    if t.succeeds then
      execTasks rest (results ++ [(t, ⟨t.output, inputs⟩)])
    else
      ⟨.failure, results, revertAll .reverting results,
        some (.taskFailure t.name)⟩

/-- Modelled from the spec: spec section 4.4, `run(context)` — from PENDING
attempt graph build and ordering; on validation failure transition directly
to FAILURE with empty `results` and surface the `InvalidStateException`;
otherwise execute every task in the computed order. -/
def runFlow (tasks : List Task) (allowSameInputs : Bool) : RunOutcome :=
  match order tasks allowSameInputs with
  | .error e => ⟨.failure, [], [], some e⟩
  | .ok ord => execTasks ord []

/-!
The in-memory backend, translated from `taskflow/backends/memory.py`.
Methods decorated with `check_not_closed` raise `ClosedException` when the
object's `_closed` flag is set; they are embedded as `Except Err`-returning
functions.  Methods without the decorator never raise `ClosedException`;
where they are embedded with an `Except` result (for uniform comparison)
they always return `.ok`.  Locks (`threading.RLock`, `ReaderWriterLock`)
only serialise access and have no sequential effect, so they are not
modelled; the `threading.Event` set/cleared by `post`/`repost` is a
real-time notification with no sequential return value and is likewise not
modelled beyond the `_notify_*` observer calls, which are returned as
notification lists. -/

/-- A job as seen by `memory.py`: compared with `==`, and `erase` reads its
`state` (`states.SUCCESS` / `states.FAILURE`). -/
structure Job where
  name : String
  state : FlowState
deriving DecidableEq, BEq, Repr

/-- `MemoryJobBoard`: `_board` is the list of `(posted datetime, job)`
pairs in posting order, `_closed` the closed flag.  Timestamps are
abstracted to `Nat`. -/
structure MemoryJobBoard where
  board : List (Nat × Job)
  closed : Bool
deriving DecidableEq, BEq, Repr

namespace MemoryJobBoard

/-- `MemoryJobBoard.close`: sets the closed flag. -/
def close (b : MemoryJobBoard) : MemoryJobBoard :=
  { b with closed := true }

/-- `MemoryJobBoard._select_posts`: yields the jobs of board entries whose
posting date satisfies the functor, in board order. -/
def selectPosts (dateFunctor : Nat → Bool) (board : List (Nat × Job)) :
    List Job :=
  (board.filter (fun p => dateFunctor p.1)).map (·.2)

/-- `MemoryJobBoard.post` (guarded by `check_not_closed`): appends
`(utcnow, job)` to the board and notifies waiters that the job was posted;
`now` stands for `datetime.utcnow()`.  Returns the updated board and the
list of jobs passed to `_notify_posted`. -/
def post (b : MemoryJobBoard) (now : Nat) (job : Job) :
    Except Err (MemoryJobBoard × List Job) :=
  if b.closed then .error (.closedException "post")
  else .ok ({ b with board := b.board ++ [(now, job)] }, [job])

/-- `MemoryJobBoard.repost` (NOT guarded by `check_not_closed`): only
notifies waiters; the board itself is unchanged. -/
def repost (b : MemoryJobBoard) (job : Job) :
    Except Err (MemoryJobBoard × List Job) :=
  .ok (b, [job])

/-- `MemoryJobBoard.posted_before` (guarded by `check_not_closed`): with a
date, the jobs posted strictly before it; with `None`, every posted job. -/
def posted_before (b : MemoryJobBoard) (datePosted : Option Nat) :
    Except Err (List Job) :=
  if b.closed then .error (.closedException "posted_before")
  else
    match datePosted with
    | none => .ok (selectPosts (fun _ => true) b.board)
    | some t => .ok (selectPosts (fun d => d < t) b.board)

/-- `MemoryJobBoard.posted_after` (guarded by `check_not_closed`): with a
date, the jobs posted at or after it (`d >= date_posted`); with `None`,
every posted job. -/
def posted_after (b : MemoryJobBoard) (datePosted : Option Nat) :
    Except Err (List Job) :=
  if b.closed then .error (.closedException "posted_after")
  else
    match datePosted with
    | none => .ok (selectPosts (fun _ => true) b.board)
    | some t => .ok (selectPosts (fun d => t ≤ d) b.board)

/-- Whether a job is currently posted on the board (the existence scan at
the top of `MemoryJobBoard.erase`). -/
def hasJob (b : MemoryJobBoard) (job : Job) : Bool :=
  b.board.any (fun p => p.2 = job)

/-- `MemoryJobBoard.erase` (guarded by `check_not_closed`): raises
`JobNotFound` when the job is not on the board, `InvalidStateException`
when its state is neither SUCCESS nor FAILURE; otherwise removes every
entry for the job and notifies erasure.  Embedded in state-passing style —
`(raised error, resulting board, jobs passed to notify-erased)` — so that
the board being left unchanged on an error is explicit. -/
def erase (b : MemoryJobBoard) (job : Job) :
    Option Err × MemoryJobBoard × List Job :=
  if b.closed then (some (.closedException "erase"), b, [])
  else if !(b.hasJob job) then (some .jobNotFound, b, [])
  else if ¬(job.state = .success ∨ job.state = .failure) then
    (some (.invalidStateException "Can not delete a job in state"), b, [])
  else (none, { b with board := b.board.filter (fun p => ¬(p.2 = job)) },
        [job])

/-- `MemoryJobBoard.await` (guarded by `check_not_closed`): waits on the
posting event.  Only the closed-check is embedded; the blocking wait is a
real-time effect with no sequential result. -/
def awaitOp (b : MemoryJobBoard) : Except Err Unit :=
  if b.closed then .error (.closedException "await") else .ok ()

end MemoryJobBoard

/-- A task detail held by a `MemoryFlowDetail`
(`logbook.TaskDetail(task_name, metadata)`). -/
structure TaskDetail where
  name : String
  metadata : Option Val

/-- `MemoryFlowDetail`: a named flow detail holding its task details in
insertion order.  NONE of its methods is guarded by `check_not_closed` (the
class has no `_closed` flag at all), so none of its operations can raise
`ClosedException`; they are embedded as plain total functions. -/
structure MemoryFlowDetail where
  name : String
  tasks : List TaskDetail

namespace MemoryFlowDetail

/-- `MemoryFlowDetail.__contains__`: whether some task detail has the given
name. -/
def containsTask (fd : MemoryFlowDetail) (taskName : String) : Bool :=
  fd.tasks.any (fun t => t.name == taskName)

/-- `MemoryFlowDetail.__getitem__`: all task details with the given name
(names are not required unique at this layer). -/
def getTasks (fd : MemoryFlowDetail) (taskName : String) : List TaskDetail :=
  fd.tasks.filter (fun t => t.name == taskName)

/-- `MemoryFlowDetail.__len__`. -/
def lenTasks (fd : MemoryFlowDetail) : Nat :=
  fd.tasks.length

/-- `MemoryFlowDetail.add_task`: appends a new task detail and returns
it. -/
def add_task (fd : MemoryFlowDetail) (taskName : String)
    (metadata : Option Val) : MemoryFlowDetail × TaskDetail :=
  let td : TaskDetail := ⟨taskName, metadata⟩
  ({ fd with tasks := fd.tasks ++ [td] }, td)

/-- `MemoryFlowDetail.__delitem__`: removes every task detail with the
given name. -/
def delTask (fd : MemoryFlowDetail) (taskName : String) : MemoryFlowDetail :=
  { fd with tasks := fd.tasks.filter (fun t => !(t.name == taskName)) }

end MemoryFlowDetail

/-- `MemoryLogBook`: `_flows` holds the flow details in insertion order,
`_flow_names` the set of their names (embedded as a duplicate-free list),
`_closed` the closed flag. -/
structure MemoryLogBook where
  flows : List MemoryFlowDetail
  flowNames : List String
  closed : Bool

namespace MemoryLogBook

/-- `MemoryLogBook.close`: sets the closed flag. -/
def close (bk : MemoryLogBook) : MemoryLogBook :=
  { bk with closed := true }

/-- `MemoryLogBook.add_flow` (guarded by `check_not_closed`): raises
`AlreadyExists` when the name is already in `_flow_names`; otherwise
appends a fresh `MemoryFlowDetail` with that name and returns it. -/
def add_flow (bk : MemoryLogBook) (flowName : String) :
    Except Err (MemoryLogBook × MemoryFlowDetail) :=
  if bk.closed then .error (.closedException "add_flow")
  else if bk.flowNames.contains flowName then .error .alreadyExists
  else
    let f : MemoryFlowDetail := ⟨flowName, []⟩
    .ok ({ bk with flows := bk.flows ++ [f]
                   flowNames := bk.flowNames ++ [flowName] }, f)

/-- `MemoryLogBook.__getitem__` (guarded by `check_not_closed`): raises
`NotFound` when the name is not in `_flow_names`; otherwise returns the
first flow detail carrying that name (`none` models the Python method
falling through and returning `None` when the name set and the flow list
are out of sync, which cannot happen for reachable books). -/
def getFlow (bk : MemoryLogBook) (flowName : String) :
    Except Err (Option MemoryFlowDetail) :=
  if bk.closed then .error (.closedException "getFlow")
  else if !(bk.flowNames.contains flowName) then .error .notFound
  else .ok (bk.flows.find? (fun w => w.name == flowName))

/-- `MemoryLogBook.__iter__` (guarded by `check_not_closed`): the flow
details in insertion order. -/
def iterFlows (bk : MemoryLogBook) : Except Err (List MemoryFlowDetail) :=
  if bk.closed then .error (.closedException "iterFlows")
  else .ok bk.flows

/-- `MemoryLogBook.__contains__` (guarded by `check_not_closed`): whether
the name is in `_flow_names`. -/
def containsFlow (bk : MemoryLogBook) (flowName : String) :
    Except Err Bool :=
  if bk.closed then .error (.closedException "containsFlow")
  else .ok (bk.flowNames.contains flowName)

/-- `MemoryLogBook.__delitem__` (NOT itself guarded, but it first calls
`self[flow_name]`, whose guard and `NotFound` check it therefore inherits):
removes the name from `_flow_names` and removes the looked-up detail from
`_flows` (`list.remove` deletes the first element equal to it — with
default object identity, exactly the first detail carrying the name).
`valueError` models the `ValueError` Python's `list.remove(None)` would
raise in the unreachable desynchronised case. -/
def delFlow (bk : MemoryLogBook) (flowName : String) :
    Except Err MemoryLogBook :=
  match bk.getFlow flowName with
  | .error e => .error e
  | .ok none => .error .valueError
  | .ok (some _) =>
    .ok { bk with flowNames := bk.flowNames.erase flowName
                  flows := bk.flows.eraseP (fun w => w.name == flowName) }

/-- `MemoryLogBook.__len__` (NOT guarded by `check_not_closed`): never
raises, closed or not. -/
def lenFlows (bk : MemoryLogBook) : Except Err Nat :=
  .ok bk.flows.length

end MemoryLogBook

/-- `MemoryCatalog`: `_catalogs` holds `(job, log book)` pairs in insertion
order, `_closed` the closed flag. -/
structure MemoryCatalog where
  catalogs : List (Job × MemoryLogBook)
  closed : Bool

namespace MemoryCatalog

/-- `MemoryCatalog.close`: sets the closed flag. -/
def close (c : MemoryCatalog) : MemoryCatalog :=
  { c with closed := true }

/-- `MemoryCatalog.__len__` (NOT guarded by `check_not_closed`): never
raises, closed or not. -/
def lenOp (c : MemoryCatalog) : Except Err Nat :=
  .ok c.catalogs.length

/-- `MemoryCatalog.__contains__` (NOT guarded by `check_not_closed`): scans
the entries for the job; never raises, closed or not. -/
def containsOp (c : MemoryCatalog) (job : Job) : Except Err Bool :=
  .ok (c.catalogs.any (fun p => p.1 = job))

/-- `MemoryCatalog.create_or_fetch` (guarded by `check_not_closed`):
returns the log book already recorded for the job, or records and returns a
fresh empty one. -/
def create_or_fetch (c : MemoryCatalog) (job : Job) :
    Except Err (MemoryCatalog × MemoryLogBook) :=
  if c.closed then .error (.closedException "create_or_fetch")
  else
    match c.catalogs.find? (fun p => p.1 = job) with
    | some p => .ok (c, p.2)
    | none =>
      let b : MemoryLogBook := ⟨[], [], false⟩
      .ok ({ c with catalogs := c.catalogs ++ [(job, b)] }, b)

/-- `MemoryCatalog.erase` (guarded by `check_not_closed`): keeps only the
entries for other jobs; absent jobs are not an error. -/
def erase (c : MemoryCatalog) (job : Job) : Except Err MemoryCatalog :=
  if c.closed then .error (.closedException "erase")
  else .ok { c with catalogs := c.catalogs.filter (fun p => ¬(p.1 = job)) }

end MemoryCatalog

/-!
Concrete fixtures, taken from the scenarios of
`taskflow/tests/unit/test_graph_flow.py` and small backend states used to
instantiate the theorems below.
-/

/-- Modelled from the spec: `taskflow.tests.utils.ProvidesRequiresTask`
(the tests' helper module is not among the provided sources) — a task with
the given requires/provides whose unit of work succeeds, producing `True`
for every name it provides (the values `test_multi_provider_allowed`
observes), and with no compensation callback. -/
def providesRequiresTask (name : String) (reqs provs : List String) : Task :=
  ⟨name, reqs, provs, true, provs.map (fun n => (n, .bool true)), false⟩

/-- `run1` of `test_reverting_flow`: provides `a`, returns `{'a': 1}`, has a
revert callback. -/
def revRun1 : Task := ⟨"run1", [], ["a"], true, [("a", .nat 1)], true⟩

/-- `run2` of `test_reverting_flow`: requires `a`, declares `c`, and its
unit of work raises. -/
def revRun2 : Task := ⟨"run2", ["a"], ["c"], false, [], false⟩

/-- `test1` of `test_no_requires_provider`: requires `c`, `d`, which no task
of that one-task flow provides. -/
def noReqTask : Task := providesRequiresTask "test1" ["c", "d"] ["a", "b"]

/-- `test1` of `test_looping_flow`. -/
def loopTask1 : Task := providesRequiresTask "test1" ["c", "d", "e"] ["a", "b"]

/-- `test2` of `test_looping_flow`. -/
def loopTask2 : Task := providesRequiresTask "test2" ["a", "b"] ["c", "d", "e"]

/-- `test6` of the multi-provider tests. -/
def mpTest6 : Task := providesRequiresTask "test6" [] ["y", "z"]

/-- `test7` of the multi-provider tests. -/
def mpTest7 : Task := providesRequiresTask "test7" ["z"] ["y"]

/-- `test8` of the multi-provider tests. -/
def mpTest8 : Task := providesRequiresTask "test8" ["y", "z"] []

/-- `run1` of `test_happy_flow`: provides `a`. -/
def happyRun1 : Task := ⟨"run1", [], ["a"], true, [("a", .nat 1)], false⟩

/-- `run2` of `test_happy_flow`: requires `a`, provides `c`. -/
def happyRun2 : Task := ⟨"run2", ["a"], ["c"], true, [("c", .nat 3)], false⟩

/-- `run3` of `test_happy_flow`: requires `a`, provides `b`. -/
def happyRun3 : Task := ⟨"run3", ["a"], ["b"], true, [("b", .nat 2)], false⟩

/-- `run4` of `test_happy_flow`: requires `b` and `c`. -/
def happyRun4 : Task := ⟨"run4", ["b", "c"], [], true, [], false⟩

/-- A job in the terminal SUCCESS state. -/
def jobSuccess : Job := ⟨"job-success", .success⟩

/-- A job still in the RUNNING (non-terminal) state. -/
def jobRunning : Job := ⟨"job-running", .running⟩

/-- A job never posted anywhere. -/
def jobAbsent : Job := ⟨"job-absent", .success⟩

/-- An open board with one terminal-state and one running job posted. -/
def sampleBoard : MemoryJobBoard := ⟨[(1, jobSuccess), (2, jobRunning)], false⟩

/-- A job posted twice on `dupBoard`. -/
def dupJob : Job := ⟨"job-dup", .success⟩

/-- An open board on which `dupJob` was posted twice, at times 1 and 5. -/
def dupBoard : MemoryJobBoard := ⟨[(1, dupJob), (5, dupJob)], false⟩

/-- A closed, empty job board. -/
def closedBoard : MemoryJobBoard := ⟨[], true⟩

/-- A closed, empty log book. -/
def closedBook : MemoryLogBook := ⟨[], [], true⟩

/-- A closed, empty catalog. -/
def closedCatalog : MemoryCatalog := ⟨[], true⟩

/-- An open, empty log book. -/
def emptyBook : MemoryLogBook := ⟨[], [], false⟩

/-- An open catalog holding one entry, for `jobSuccess`. -/
def sampleCatalog : MemoryCatalog := ⟨[(jobSuccess, ⟨[], [], false⟩)], false⟩

/-- The topological soundness relation: `b` is not a producer of `a`, i.e.
nothing `a` requires is provided by `b`.  An execution order is
dependency-respecting exactly when this holds of every pair `(a, b)` with
`a` at or before `b` (spec section 8, "Topological correctness"). -/
def noBackEdge (a b : Task) : Prop :=
  ∀ r ∈ a.requires, r ∉ b.provides

/-! Helper lemmas about `MemoryJobBoard.erase` and `MemoryCatalog.erase`. -/

/-- On an open board, erasing a job that is not posted raises `JobNotFound`
and leaves the board unchanged, with no erasure notification. -/
theorem jobboard_erase_not_posted (b : MemoryJobBoard) (job : Job)
    (hopen : b.closed = false) (h : b.hasJob job = false) :
    b.erase job = (some .jobNotFound, b, []) := by
  simp [MemoryJobBoard.erase, hopen, h]

/-- On an open board, erasing a posted job whose state is neither SUCCESS
nor FAILURE raises `InvalidStateException` and leaves the board unchanged,
with no erasure notification. -/
theorem jobboard_erase_non_terminal (b : MemoryJobBoard) (job : Job)
    (hopen : b.closed = false) (h : b.hasJob job = true)
    (hs : job.state ≠ .success) (hf : job.state ≠ .failure) :
    b.erase job =
      (some (.invalidStateException "Can not delete a job in state"), b, []) := by
  simp [MemoryJobBoard.erase, hopen, h, hs, hf]

/-- On an open board, erasing a posted job in a terminal state removes all
of its entries and notifies the erasure. -/
theorem jobboard_erase_terminal (b : MemoryJobBoard) (job : Job)
    (hopen : b.closed = false) (h : b.hasJob job = true)
    (hterm : job.state = .success ∨ job.state = .failure) :
    b.erase job =
      (none, { b with board := b.board.filter (fun p => ¬(p.2 = job)) },
       [job]) := by
  rcases hterm with h2 | h2 <;> simp [MemoryJobBoard.erase, hopen, h, h2]

/-- C1: for the two-task flow of `test_reverting_flow` — `run1` completes
producing `{'a': 1}` and `run2`'s unit of work raises — `run` leaves the
flow in FAILURE, invokes `run1`'s revert exactly once with `run1`'s own
result `{'a': 1}` and a cause whose flow state is REVERTING at the moment
the callback runs, invokes no compensation for the failed `run2` (the
reverted list names only `run1`), and re-surfaces the triggering error to
the caller after the compensations. -/
theorem claim_C1_revert_protocol :
    runFlow [revRun1, revRun2] false =
      { state := .failure
        results := [(revRun1, ⟨[("a", .nat 1)], []⟩)]
        reverted := [⟨"run1", [("a", .nat 1)], .reverting⟩]
        error := some (.taskFailure "run2") } := rfl

/-- C6: on every open `MemoryJobBoard`, `erase(job)` raises `JobNotFound`
when the job is not posted; raises `InvalidStateException` when it is
posted but its state is neither SUCCESS nor FAILURE; in both error cases
the resulting board is the unchanged input board and nothing is notified;
otherwise it removes the job's entries and notifies the erasure. -/
theorem claim_C6_jobboard_erase (b : MemoryJobBoard) (job : Job)
    (hopen : b.closed = false) :
    (b.hasJob job = false → b.erase job = (some .jobNotFound, b, [])) ∧
    (b.hasJob job = true → job.state ≠ .success → job.state ≠ .failure →
      b.erase job =
        (some (.invalidStateException "Can not delete a job in state"), b,
         [])) ∧
    (b.hasJob job = true → (job.state = .success ∨ job.state = .failure) →
      b.erase job =
        (none, { b with board := b.board.filter (fun p => ¬(p.2 = job)) },
         [job])) :=
  ⟨fun h => jobboard_erase_not_posted b job hopen h,
   fun h hs hf => jobboard_erase_non_terminal b job hopen h hs hf,
   fun h hterm => jobboard_erase_terminal b job hopen h hterm⟩

/-- Witness for C6 on `sampleBoard`: erasing an absent job, a posted
running job, and a posted successful job exercise the three branches. -/
theorem claim_C6_jobboard_erase_witness :
    sampleBoard.closed = false ∧
    sampleBoard.hasJob jobAbsent = false ∧
    sampleBoard.erase jobAbsent = (some .jobNotFound, sampleBoard, []) ∧
    sampleBoard.erase jobRunning =
      (some (.invalidStateException "Can not delete a job in state"),
       sampleBoard, []) ∧
    sampleBoard.erase jobSuccess =
      (none,
       { sampleBoard with
           board := sampleBoard.board.filter (fun p => ¬(p.2 = jobSuccess)) },
       [jobSuccess]) :=
  ⟨rfl, by decide,
   (claim_C6_jobboard_erase sampleBoard jobAbsent rfl).1 (by decide),
   (claim_C6_jobboard_erase sampleBoard jobRunning rfl).2.1 (by decide)
     (by decide) (by decide),
   (claim_C6_jobboard_erase sampleBoard jobSuccess rfl).2.2 (by decide)
     (Or.inl rfl)⟩

/-- C10: on every open `MemoryCatalog`, `erase(job)` never raises: it
returns the catalog restricted to the entries of other jobs, and when the
job has no entry it returns the catalog unchanged — in contrast with the
job board's `erase`, which raises `JobNotFound` for an absent job. -/
theorem claim_C10_catalog_erase_total (c : MemoryCatalog) (job : Job)
    (hopen : c.closed = false) :
    c.erase job =
      .ok { c with catalogs := c.catalogs.filter (fun p => ¬(p.1 = job)) } ∧
    ((∀ p ∈ c.catalogs, p.1 ≠ job) → c.erase job = .ok c) ∧
    (∀ b : MemoryJobBoard, b.closed = false → b.hasJob job = false →
      b.erase job = (some .jobNotFound, b, [])) := by
  have h1 : c.erase job =
      .ok { c with catalogs := c.catalogs.filter (fun p => ¬(p.1 = job)) } := by
    simp [MemoryCatalog.erase, hopen]
  refine ⟨h1, fun h => ?_,
    fun b hb hj => jobboard_erase_not_posted b job hb hj⟩
  have hfilter : c.catalogs.filter (fun p => ¬(p.1 = job)) = c.catalogs :=
    List.filter_eq_self.mpr (fun p hp => by simpa using h p hp)
  rw [h1, hfilter]

/-- Witness for C10 on `sampleCatalog` and the absent `jobAbsent`. -/
theorem claim_C10_catalog_erase_total_witness :
    sampleCatalog.closed = false ∧
    (∀ p ∈ sampleCatalog.catalogs, p.1 ≠ jobAbsent) ∧
    sampleCatalog.erase jobAbsent = .ok sampleCatalog ∧
    sampleBoard.erase jobAbsent = (some .jobNotFound, sampleBoard, []) :=
  ⟨rfl, by decide,
   (claim_C10_catalog_erase_total sampleCatalog jobAbsent rfl).2.1
     (by decide),
   (claim_C10_catalog_erase_total sampleCatalog jobAbsent rfl).2.2
     sampleBoard rfl (by decide)⟩

/-- C8: on every open `MemoryLogBook`, `add_flow(name)` raises
`AlreadyExists` when the name is taken and otherwise appends and returns a
fresh flow detail with that name; lookup of an unknown name raises
`NotFound`, as does removal of an unknown name; and looking up a name just
added (to a book that did not already hold a detail with that name)
returns exactly the added flow detail. -/
theorem claim_C8_logbook_add_lookup (bk : MemoryLogBook) (nm : String)
    (hopen : bk.closed = false) :
    (bk.flowNames.contains nm = true →
      bk.add_flow nm = .error .alreadyExists) ∧
    (bk.flowNames.contains nm = false →
      bk.add_flow nm =
        .ok ({ bk with flows := bk.flows ++ [⟨nm, []⟩]
                       flowNames := bk.flowNames ++ [nm] }, ⟨nm, []⟩)) ∧
    (bk.flowNames.contains nm = false → bk.getFlow nm = .error .notFound) ∧
    (bk.flowNames.contains nm = false → bk.delFlow nm = .error .notFound) ∧
    (bk.flowNames.contains nm = false → (∀ f ∈ bk.flows, f.name ≠ nm) →
      ∀ bk2 fd, bk.add_flow nm = .ok (bk2, fd) →
        bk2.getFlow nm = .ok (some fd)) := by
  refine ⟨fun h => by simp at h; simp [MemoryLogBook.add_flow, hopen, h],
    fun h => by simp at h; simp [MemoryLogBook.add_flow, hopen, h],
    fun h => by simp at h; simp [MemoryLogBook.getFlow, hopen, h],
    fun h => by
      simp at h
      simp [MemoryLogBook.delFlow, MemoryLogBook.getFlow, hopen, h],
    fun h hnames bk2 fd hadd => ?_⟩
  simp at h
  have hadd' : bk.add_flow nm =
      .ok ({ bk with flows := bk.flows ++ [⟨nm, []⟩]
                     flowNames := bk.flowNames ++ [nm] }, ⟨nm, []⟩) := by
    simp [MemoryLogBook.add_flow, hopen, h]
  rw [hadd'] at hadd
  obtain ⟨rfl, rfl⟩ := Prod.mk.inj (Except.ok.inj hadd)
  have hfind : bk.flows.find? (fun w => w.name == nm) = none :=
    List.find?_eq_none.mpr (fun x hx => by simp [hnames x hx])
  have hc : (bk.flowNames ++ [nm]).contains nm = true := by
    simp [List.contains, List.elem_iff]
  simp [MemoryLogBook.getFlow, hopen, hc, List.find?_append, hfind]

/-- Witness for C8 on the empty open book: adding `f1`, failing lookups of
the unknown name, the add-then-lookup roundtrip, and the duplicate-add
failure on the resulting book. -/
theorem claim_C8_logbook_add_lookup_witness :
    emptyBook.closed = false ∧
    emptyBook.flowNames.contains "f1" = false ∧
    emptyBook.add_flow "f1" =
      .ok (⟨[⟨"f1", []⟩], ["f1"], false⟩, ⟨"f1", []⟩) ∧
    emptyBook.getFlow "f1" = .error .notFound ∧
    emptyBook.delFlow "f1" = .error .notFound ∧
    (MemoryLogBook.mk [⟨"f1", []⟩] ["f1"] false).getFlow "f1" =
      .ok (some ⟨"f1", []⟩) ∧
    (MemoryLogBook.mk [⟨"f1", []⟩] ["f1"] false).add_flow "f1" =
      .error .alreadyExists :=
  ⟨rfl, rfl,
   (claim_C8_logbook_add_lookup emptyBook "f1" rfl).2.1 rfl,
   (claim_C8_logbook_add_lookup emptyBook "f1" rfl).2.2.1 rfl,
   (claim_C8_logbook_add_lookup emptyBook "f1" rfl).2.2.2.1 rfl,
   (claim_C8_logbook_add_lookup emptyBook "f1" rfl).2.2.2.2 rfl
     (by simp [emptyBook]) ⟨[⟨"f1", []⟩], ["f1"], false⟩ ⟨"f1", []⟩ rfl,
   (claim_C8_logbook_add_lookup ⟨[⟨"f1", []⟩], ["f1"], false⟩ "f1" rfl).1
     rfl⟩

/-- C7 counterexample: the claim that EVERY operation raises
`ClosedException` once `close()` was called is false — `MemoryCatalog`'s
`__len__` and `__contains__`, `MemoryLogBook`'s `__len__` and
`MemoryJobBoard`'s `repost` carry no `check_not_closed` guard and complete
normally on closed objects (and `MemoryFlowDetail` has no closed flag at
all). -/
theorem claim_C7_counterexample :
    closedCatalog.closed = true ∧
    closedCatalog.lenOp = .ok 0 ∧
    closedCatalog.containsOp jobAbsent = .ok false ∧
    closedBook.closed = true ∧
    closedBook.lenFlows = .ok 0 ∧
    closedBoard.closed = true ∧
    closedBoard.repost jobAbsent = .ok (closedBoard, [jobAbsent]) :=
  ⟨rfl, rfl, rfl, rfl, rfl, rfl, rfl⟩

/-- C7 amended: once `close()` has been called, exactly the operations
decorated with `check_not_closed` raise `ClosedException`: the catalog's
`create_or_fetch` and `erase`; the log book's `add_flow`, lookup,
iteration, membership, and removal (which inherits the guard through
lookup); the job board's `post`, `posted_before`, `posted_after`, `erase`
and `await`.  The remaining operations are unguarded and still complete
normally after close: the catalog's `__len__` and `__contains__`, the log
book's `__len__`, the job board's `repost`, and every `MemoryFlowDetail`
operation (the class has no closed flag at all). -/
theorem claim_C7_amended_closed_guards (c : MemoryCatalog)
    (bk : MemoryLogBook) (b : MemoryJobBoard) (fd : MemoryFlowDetail)
    (job : Job) (nm : String) (now : Nat)
    (hc : c.closed = true) (hbk : bk.closed = true) (hb : b.closed = true) :
    c.create_or_fetch job = .error (.closedException "create_or_fetch") ∧
    c.erase job = .error (.closedException "erase") ∧
    bk.add_flow nm = .error (.closedException "add_flow") ∧
    bk.getFlow nm = .error (.closedException "getFlow") ∧
    bk.iterFlows = .error (.closedException "iterFlows") ∧
    bk.containsFlow nm = .error (.closedException "containsFlow") ∧
    bk.delFlow nm = .error (.closedException "getFlow") ∧
    b.post now job = .error (.closedException "post") ∧
    b.posted_before none = .error (.closedException "posted_before") ∧
    b.posted_after none = .error (.closedException "posted_after") ∧
    b.erase job = (some (.closedException "erase"), b, []) ∧
    b.awaitOp = .error (.closedException "await") ∧
    c.lenOp = .ok c.catalogs.length ∧
    c.containsOp job = .ok (c.catalogs.any (fun p => p.1 = job)) ∧
    bk.lenFlows = .ok bk.flows.length ∧
    b.repost job = .ok (b, [job]) ∧
    (fd.add_task nm none).1.tasks = fd.tasks ++ [⟨nm, none⟩] := by
  simp [MemoryCatalog.create_or_fetch, MemoryCatalog.erase,
    MemoryLogBook.add_flow, MemoryLogBook.getFlow, MemoryLogBook.iterFlows,
    MemoryLogBook.containsFlow, MemoryLogBook.delFlow,
    MemoryLogBook.lenFlows, MemoryJobBoard.post,
    MemoryJobBoard.posted_before, MemoryJobBoard.posted_after,
    MemoryJobBoard.erase, MemoryJobBoard.awaitOp, MemoryJobBoard.repost,
    MemoryCatalog.lenOp, MemoryCatalog.containsOp,
    MemoryFlowDetail.add_task, hc, hbk, hb]

/-- Witness for C7-amended on the closed fixtures. -/
theorem claim_C7_amended_closed_guards_witness :
    closedCatalog.create_or_fetch jobAbsent =
      .error (.closedException "create_or_fetch") ∧
    closedBook.add_flow "f1" = .error (.closedException "add_flow") ∧
    closedBoard.erase jobAbsent =
      (some (.closedException "erase"), closedBoard, []) := by
  have H := claim_C7_amended_closed_guards closedCatalog closedBook
    closedBoard ⟨"fd", []⟩ jobAbsent "f1" 0 rfl rfl rfl
  exact ⟨H.1, H.2.2.1, H.2.2.2.2.2.2.2.2.2.2.1⟩

/-- The jobs posted strictly before `t` and those posted at or after `t`
together are a permutation of all posted jobs (entry-level partition of the
board). -/
theorem selectPosts_partition (board : List (Nat × Job)) (t : Nat) :
    (MemoryJobBoard.selectPosts (fun d => d < t) board ++
     MemoryJobBoard.selectPosts (fun d => t ≤ d) board).Perm
      (board.map (·.2)) := by
  induction board with
  | nil => simp [MemoryJobBoard.selectPosts]
  | cons p rest ih =>
    by_cases hd : p.1 < t
    · have hnle : ¬ t ≤ p.1 := Nat.not_le.mpr hd
      simpa [MemoryJobBoard.selectPosts, List.filter_cons, hd, hnle]
        using ih.cons p.2
    · have hle : t ≤ p.1 := Nat.not_lt.mp hd
      have hgoal : (MemoryJobBoard.selectPosts (fun d => d < t) rest ++
          (p.2 :: MemoryJobBoard.selectPosts (fun d => t ≤ d) rest)).Perm
            (p.2 :: rest.map (·.2)) :=
        List.perm_middle.trans (ih.cons p.2)
      simpa [MemoryJobBoard.selectPosts, List.filter_cons, hd, hle]
        using hgoal

/-- C9 counterexample: a job posted twice, at times 1 and 5, appears in
BOTH `posted_before(3)` and `posted_after(3)` — refuting that each posted
job appears in exactly one of the two lists. -/
theorem claim_C9_counterexample :
    dupBoard.closed = false ∧
    dupBoard.posted_before none = .ok [dupJob, dupJob] ∧
    dupBoard.posted_before (some 3) = .ok [dupJob] ∧
    dupBoard.posted_after (some 3) = .ok [dupJob] :=
  ⟨rfl, rfl, rfl, rfl⟩

/-- C9 amended: on every open board, `posted_before(t)` returns the jobs of
the entries posted strictly before `t` and `posted_after(t)` those posted
at or after `t`, in posting order; together the two lists are a permutation
of all posted jobs (so each POSTING lands in exactly one list, and a job
posted once appears in exactly one); with no timestamp either operation
returns every posted job in posting order. -/
theorem claim_C9_amended_partition (b : MemoryJobBoard) (t : Nat)
    (hopen : b.closed = false) :
    b.posted_before (some t) =
      .ok (MemoryJobBoard.selectPosts (fun d => d < t) b.board) ∧
    b.posted_after (some t) =
      .ok (MemoryJobBoard.selectPosts (fun d => t ≤ d) b.board) ∧
    (MemoryJobBoard.selectPosts (fun d => d < t) b.board ++
     MemoryJobBoard.selectPosts (fun d => t ≤ d) b.board).Perm
      (b.board.map (·.2)) ∧
    b.posted_before none = .ok (b.board.map (·.2)) ∧
    b.posted_after none = .ok (b.board.map (·.2)) :=
  ⟨by simp [MemoryJobBoard.posted_before, hopen],
   by simp [MemoryJobBoard.posted_after, hopen],
   selectPosts_partition b.board t,
   by simp [MemoryJobBoard.posted_before, hopen, MemoryJobBoard.selectPosts],
   by simp [MemoryJobBoard.posted_after, hopen, MemoryJobBoard.selectPosts]⟩

/-- Witness for C9-amended on `sampleBoard` at timestamp 2. -/
theorem claim_C9_amended_partition_witness :
    sampleBoard.closed = false ∧
    sampleBoard.posted_before (some 2) = .ok [jobSuccess] ∧
    sampleBoard.posted_after (some 2) = .ok [jobRunning] ∧
    ([jobSuccess] ++ [jobRunning]).Perm
      (sampleBoard.board.map (·.2)) ∧
    sampleBoard.posted_before none = .ok [jobSuccess, jobRunning] := by
  have H := claim_C9_amended_partition sampleBoard 2 rfl
  exact ⟨rfl, H.1, H.2.1, H.2.2.1, H.2.2.2.1⟩

/-! Helper lemmas about the flow engine's validation and failure
propagation. -/

/-- A flow containing a task with a required name that no task of the flow
provides has an unresolved requirement. -/
theorem hasUnresolvedRequirement_of_witness {tasks : List Task}
    (h : ∃ t ∈ tasks, ∃ r ∈ t.requires, ∀ p ∈ tasks, r ∉ p.provides) :
    hasUnresolvedRequirement tasks = true := by
  obtain ⟨t, ht, r, hr, hnone⟩ := h
  simp only [hasUnresolvedRequirement, List.any_eq_true]
  refine ⟨t, ht, r, hr, ?_⟩
  simp only [producersOf, List.isEmpty_iff, List.filter_eq_nil_iff]
  intro p hp
  simpa using hnone p hp

/-- Whenever the unresolved-requirement check fires, `connect` fails with
an `InvalidStateException` (either at the earlier ambiguity check or at the
requirement check itself). -/
theorem connect_fails_of_unresolved {tasks : List Task} {allow : Bool}
    (h : hasUnresolvedRequirement tasks = true) :
    ∃ m, connect tasks allow = .error (.invalidStateException m) := by
  by_cases hamb : (!allow && hasAmbiguousProvider tasks) = true
  · exact ⟨"ambiguous provider", by simp [connect, hamb]⟩
  · exact ⟨"unresolved requirement", by simp [connect, hamb, h]⟩

/-- `order` propagates every `connect` failure. -/
theorem order_error_of_connect {tasks : List Task} {allow : Bool} {e : Err}
    (h : connect tasks allow = .error e) :
    order tasks allow = .error e := by
  simp [order, h]

/-- When ordering fails, `run` transitions straight to FAILURE with empty
results, no compensations, and the validation error surfaced. -/
theorem runFlow_of_order_error {tasks : List Task} {allow : Bool} {e : Err}
    (h : order tasks allow = .error e) :
    runFlow tasks allow = ⟨.failure, [], [], some e⟩ := by
  simp [runFlow, h]

/-- C2: for every flow in which some task requires a name that no task of
the flow provides, `connect`, `order` and `run` all fail with
`InvalidStateException`, and `run` leaves the flow in FAILURE with empty
`results` (no task executed, nothing reverted) while surfacing the
error. -/
theorem claim_C2_unresolved_requirement (tasks : List Task) (allow : Bool)
    (h : ∃ t ∈ tasks, ∃ r ∈ t.requires, ∀ p ∈ tasks, r ∉ p.provides) :
    (∃ m, connect tasks allow = .error (.invalidStateException m)) ∧
    (∃ m, order tasks allow = .error (.invalidStateException m)) ∧
    (∃ m, runFlow tasks allow =
      ⟨.failure, [], [], some (.invalidStateException m)⟩) := by
  obtain ⟨m, hconn⟩ :=
    @connect_fails_of_unresolved tasks allow
      (hasUnresolvedRequirement_of_witness h)
  exact ⟨⟨m, hconn⟩, ⟨m, order_error_of_connect hconn⟩,
    ⟨m, runFlow_of_order_error (order_error_of_connect hconn)⟩⟩

/-- Witness for C2 on the one-task flow of `test_no_requires_provider`
(`test1` requires `c` and `d`, which nothing provides). -/
theorem claim_C2_unresolved_requirement_witness :
    (∃ t ∈ [noReqTask], ∃ r ∈ t.requires, ∀ p ∈ [noReqTask],
      r ∉ p.provides) ∧
    (∃ m, connect [noReqTask] false = .error (.invalidStateException m)) ∧
    (∃ m, order [noReqTask] false = .error (.invalidStateException m)) ∧
    (∃ m, runFlow [noReqTask] false =
      ⟨.failure, [], [], some (.invalidStateException m)⟩) := by
  have H := claim_C2_unresolved_requirement [noReqTask] false (by decide)
  exact ⟨by decide, H⟩

/-- C5: for every two-task flow where each task requires a name that only
the other task provides (a dependency cycle), `connect`, `order` and `run`
all fail with `InvalidStateException`, and `run` leaves the flow in FAILURE
with empty `results` (no task executed) while surfacing the error. -/
theorem claim_C5_cycle_rejected (t1 t2 : Task) (allow : Bool)
    (h1 : ∃ r ∈ t1.requires, r ∈ t2.provides ∧ r ∉ t1.provides)
    (h2 : ∃ r ∈ t2.requires, r ∈ t1.provides ∧ r ∉ t2.provides) :
    (∃ m, connect [t1, t2] allow = .error (.invalidStateException m)) ∧
    (∃ m, order [t1, t2] allow = .error (.invalidStateException m)) ∧
    (∃ m, runFlow [t1, t2] allow =
      ⟨.failure, [], [], some (.invalidStateException m)⟩) := by
  obtain ⟨r1, hr1, hr1p, _⟩ := h1
  obtain ⟨r2, hr2, hr2p, _⟩ := h2
  have hready1 : readyB [t1, t2] t1 = false := by
    refine Bool.eq_false_iff.mpr (fun hready => ?_)
    simp only [readyB, List.all_eq_true] at hready
    have := hready r1 hr1 t2 (by simp)
    simp [hr1p] at this
  have hready2 : readyB [t1, t2] t2 = false := by
    refine Bool.eq_false_iff.mpr (fun hready => ?_)
    simp only [readyB, List.all_eq_true] at hready
    have := hready r2 hr2 t1 (by simp)
    simp [hr2p] at this
  have hsched : schedule 2 [] [t1, t2] =
      .error (.invalidStateException "circular dependency") := by
    simp [schedule, List.filter_cons, hready1, hready2]
  have hconn : ∃ m, connect [t1, t2] allow =
      .error (.invalidStateException m) := by
    by_cases hamb : (!allow && hasAmbiguousProvider [t1, t2]) = true
    · exact ⟨"ambiguous provider", by simp [connect, hamb]⟩
    · by_cases hunres : hasUnresolvedRequirement [t1, t2] = true
      · exact ⟨"unresolved requirement", by simp [connect, hamb, hunres]⟩
      · exact ⟨"circular dependency", by simp [connect, hamb, hunres, hsched]⟩
  obtain ⟨m, hconn⟩ := hconn
  exact ⟨⟨m, hconn⟩, ⟨m, order_error_of_connect hconn⟩,
    ⟨m, runFlow_of_order_error (order_error_of_connect hconn)⟩⟩

/-- Witness for C5 on the two tasks of `test_looping_flow`. -/
theorem claim_C5_cycle_rejected_witness :
    (∃ r ∈ loopTask1.requires, r ∈ loopTask2.provides ∧
      r ∉ loopTask1.provides) ∧
    (∃ r ∈ loopTask2.requires, r ∈ loopTask1.provides ∧
      r ∉ loopTask2.provides) ∧
    (∃ m, runFlow [loopTask1, loopTask2] false =
      ⟨.failure, [], [], some (.invalidStateException m)⟩) := by
  have H := claim_C5_cycle_rejected loopTask1 loopTask2 false
    (by decide) (by decide)
  exact ⟨by decide, by decide, H.2.2⟩

/-- A list holding two distinct elements has length greater than one. -/
theorem two_mem_one_lt_length {α : Type _} {l : List α} {a b : α}
    (ha : a ∈ l) (hb : b ∈ l) (hne : a ≠ b) : 1 < l.length := by
  cases l with
  | nil => simp at ha
  | cons x xs =>
    cases xs with
    | nil =>
      simp only [List.mem_singleton] at ha hb
      exact absurd (ha.trans hb.symm) hne
    | cons y ys =>
      simp only [List.length_cons]
      omega

/-- Two distinct tasks providing the same name make the flow ambiguous. -/
theorem hasAmbiguousProvider_of_two {tasks : List Task} {t1 t2 : Task}
    {n : String} (h1 : t1 ∈ tasks) (h2 : t2 ∈ tasks) (hne : t1 ≠ t2)
    (hp1 : n ∈ t1.provides) (hp2 : n ∈ t2.provides) :
    hasAmbiguousProvider tasks = true := by
  have hmem1 : t1 ∈ producersOf tasks n :=
    List.mem_filter.mpr ⟨h1, by simpa using hp1⟩
  have hmem2 : t2 ∈ producersOf tasks n :=
    List.mem_filter.mpr ⟨h2, by simpa using hp2⟩
  have hlen : 1 < (producersOf tasks n).length :=
    two_mem_one_lt_length hmem1 hmem2 hne
  simp only [hasAmbiguousProvider, List.any_eq_true]
  exact ⟨t1, h1, n, hp1, by simpa using hlen⟩

/-- C3: with `allow_same_inputs=false`, every flow containing two distinct
tasks that provide the same name fails validation with
`InvalidStateException` and `run` ends in FAILURE with that error surfaced
and empty results; for the same graph as `test_multi_provider_allowed` with
`allow_same_inputs=true`, validation succeeds and the run completes with
the consumer `test8` receiving the two producers' values for `y` as a list
in producer-completion order while the singly-produced `z` arrives as the
single value `True`. -/
theorem claim_C3_multi_provider (tasks : List Task) (t1 t2 : Task)
    (n : String) (h1 : t1 ∈ tasks) (h2 : t2 ∈ tasks) (hne : t1 ≠ t2)
    (hp1 : n ∈ t1.provides) (hp2 : n ∈ t2.provides) :
    ((∃ m, connect tasks false = .error (.invalidStateException m)) ∧
     (∃ m, runFlow tasks false =
       ⟨.failure, [], [], some (.invalidStateException m)⟩)) ∧
    (connect [mpTest6, mpTest7, mpTest8] true =
      .ok [mpTest6, mpTest7, mpTest8] ∧
     runFlow [mpTest6, mpTest7, mpTest8] true =
      { state := .success
        results :=
          [(mpTest6, ⟨[("y", .bool true), ("z", .bool true)], []⟩),
           (mpTest7, ⟨[("y", .bool true)], [("z", .bool true)]⟩),
           (mpTest8, ⟨[],
             [("y", .list [.bool true, .bool true]), ("z", .bool true)]⟩)]
        reverted := []
        error := none }) := by
  have hamb := hasAmbiguousProvider_of_two h1 h2 hne hp1 hp2
  have hconn : connect tasks false =
      .error (.invalidStateException "ambiguous provider") := by
    simp [connect, hamb]
  exact ⟨⟨⟨_, hconn⟩,
    ⟨_, runFlow_of_order_error (order_error_of_connect hconn)⟩⟩,
    rfl, rfl⟩

/-- Witness for C3 on the flows of `test_multi_provider_disallowed` /
`test_multi_provider_allowed` (`test6` and `test7` both provide `y`). -/
theorem claim_C3_multi_provider_witness :
    mpTest6 ∈ [mpTest6, mpTest7, mpTest8] ∧
    mpTest7 ∈ [mpTest6, mpTest7, mpTest8] ∧
    mpTest6 ≠ mpTest7 ∧
    "y" ∈ mpTest6.provides ∧ "y" ∈ mpTest7.provides ∧
    (∃ m, runFlow [mpTest6, mpTest7, mpTest8] false =
      ⟨.failure, [], [], some (.invalidStateException m)⟩) := by
  have H := claim_C3_multi_provider [mpTest6, mpTest7, mpTest8]
    mpTest6 mpTest7 "y" (by simp) (by simp)
    (fun h => absurd (congrArg Task.name h) (by decide))
    (by decide) (by decide)
  exact ⟨by simp, by simp,
    fun h => absurd (congrArg Task.name h) (by decide),
    by decide, by decide, H.1.2⟩

/-- `Pairwise` holds when the relation holds for every pair of members. -/
theorem pairwise_of_mem {α : Type _} {R : α → α → Prop} :
    ∀ {l : List α}, (∀ a ∈ l, ∀ b ∈ l, R a b) → l.Pairwise R
  | [], _ => .nil
  | x :: xs, h =>
    .cons (fun b hb => h x (List.mem_cons_self x xs) b
        (List.mem_cons_of_mem x hb))
      (pairwise_of_mem (fun a ha b hb =>
        h a (List.mem_cons_of_mem x ha) b (List.mem_cons_of_mem x hb)))

/-- A ready task has no producer among the remaining tasks: nothing it
requires is provided by any remaining task. -/
theorem readyB_noBackEdge {rem : List Task} {t p : Task}
    (hready : readyB rem t = true) (hp : p ∈ rem) : noBackEdge t p := by
  intro r hr
  simp only [readyB, List.all_eq_true] at hready
  have h := hready r hr p hp
  simpa using h

/-- Soundness of the Kahn scheduling loop: a successful `schedule` extends
`done` with a permutation of `remaining` in which no task is followed (or
accompanied) by one of its producers — every task comes strictly after all
of its producers. -/
theorem schedule_sound (fuel : Nat) (done remaining ord : List Task)
    (h : schedule fuel done remaining = .ok ord) :
    ∃ tail, ord = done ++ tail ∧ tail.Perm remaining ∧
      tail.Pairwise noBackEdge ∧ (∀ t ∈ tail, noBackEdge t t) := by
  induction fuel generalizing done remaining ord with
  | zero =>
    cases remaining with
    | nil =>
      simp only [schedule, Except.ok.injEq] at h
      exact ⟨[], by simp [h], .nil, .nil, by simp⟩
    | cons a l => simp [schedule] at h
  | succ fuel ih =>
    cases remaining with
    | nil =>
      simp only [schedule, Except.ok.injEq] at h
      exact ⟨[], by simp [h], .nil, .nil, by simp⟩
    | cons a l =>
      simp only [schedule] at h
      by_cases hemp : (((a :: l).filter (readyB (a :: l)))).isEmpty = true
      · rw [if_pos hemp] at h
        exact absurd h (by simp)
      · rw [if_neg hemp] at h
        obtain ⟨tail', rfl, hperm, hpw, hself⟩ := ih _ _ _ h
        refine ⟨(a :: l).filter (readyB (a :: l)) ++ tail',
          List.append_assoc .., ?_, ?_, ?_⟩
        · exact (List.Perm.append_left _ hperm).trans
            (List.filter_append_perm (readyB (a :: l)) (a :: l))
        · rw [List.pairwise_append]
          refine ⟨pairwise_of_mem (fun x hx y hy =>
            readyB_noBackEdge (List.mem_filter.mp hx).2
              (List.mem_filter.mp hy).1), hpw, ?_⟩
          intro x hx y hy
          have hxr : readyB (a :: l) x = true := (List.mem_filter.mp hx).2
          have hyrem : y ∈ a :: l :=
            (List.mem_filter.mp (hperm.subset hy)).1
          exact readyB_noBackEdge hxr hyrem
        · intro t ht
          rcases List.mem_append.mp ht with h' | h'
          · exact readyB_noBackEdge (List.mem_filter.mp h').2
              (List.mem_filter.mp h').1
          · exact hself t h'

/-- When every task's unit of work succeeds, `execTasks` completes in
SUCCESS with no error, appending exactly the executed tasks, in execution
order, to the results. -/
theorem execTasks_all_success :
    ∀ (ord : List Task) (acc : List (Task × TaskOutcome)),
      (∀ t ∈ ord, t.succeeds = true) →
      (execTasks ord acc).state = .success ∧
      (execTasks ord acc).results.map Prod.fst = acc.map Prod.fst ++ ord ∧
      (execTasks ord acc).error = none
  | [], acc, _ => by simp [execTasks]
  | t :: rest, acc, h => by
    have hs : t.succeeds = true := h t (List.mem_cons_self t rest)
    have hrest : ∀ x ∈ rest, x.succeeds = true :=
      fun x hx => h x (List.mem_cons_of_mem t hx)
    obtain ⟨ha, hb, hc⟩ := execTasks_all_success rest
      (acc ++ [(t, ⟨t.output, resolveInputs acc t.requires⟩)]) hrest
    refine ⟨by simpa [execTasks, hs] using ha, ?_, by simpa [execTasks, hs] using hc⟩
    have : (execTasks (t :: rest) acc) = execTasks rest
        (acc ++ [(t, ⟨t.output, resolveInputs acc t.requires⟩)]) := by
      simp [execTasks, hs]
    rw [this, hb]
    simp

/-- C4: for every flow whose graph validates and orders, the computed
execution order is a permutation of the task sequence in which every task
appears strictly after all of its producers (no task at or after a task
provides anything that task requires), and when every unit of work
succeeds `run` executes exactly that order and ends in SUCCESS; moreover on
the four-task flow of `test_happy_flow`, `run` executes `run1` first and
`run4` last with all four tasks exactly once. -/
theorem claim_C4_topological_order (tasks : List Task) (allow : Bool)
    (ord : List Task) (h : order tasks allow = .ok ord) :
    (ord.Pairwise noBackEdge ∧ (∀ t ∈ ord, noBackEdge t t) ∧
      ord.Perm tasks) ∧
    ((∀ t ∈ tasks, t.succeeds = true) →
      (runFlow tasks allow).state = .success ∧
      (runFlow tasks allow).results.map Prod.fst = ord) ∧
    ((runFlow [happyRun1, happyRun2, happyRun3, happyRun4] false).results.map
        (fun p => p.1.name) = ["run1", "run2", "run3", "run4"] ∧
     (runFlow [happyRun1, happyRun2, happyRun3, happyRun4] false).state =
       .success) := by
  have hsched : schedule tasks.length [] tasks = .ok ord := by
    cases hconn : connect tasks allow with
    | error e => simp [order, hconn] at h
    | ok g => simpa [order, hconn] using h
  obtain ⟨tail, htail, hperm, hpw, hself⟩ :=
    schedule_sound tasks.length [] tasks ord hsched
  simp only [List.nil_append] at htail
  subst htail
  refine ⟨⟨hpw, hself, hperm⟩, fun hall => ?_, rfl, rfl⟩
  have hrun : runFlow tasks allow = execTasks ord [] := by
    simp [runFlow, h]
  have hexec := execTasks_all_success ord []
    (fun t ht => hall t (hperm.subset ht))
  rw [hrun]
  exact ⟨hexec.1, by simpa using hexec.2.1⟩

/-- Witness for C4 on the `test_happy_flow` tasks. -/
theorem claim_C4_topological_order_witness :
    order [happyRun1, happyRun2, happyRun3, happyRun4] false =
      .ok [happyRun1, happyRun2, happyRun3, happyRun4] ∧
    ([happyRun1, happyRun2, happyRun3, happyRun4].Pairwise noBackEdge ∧
      (∀ t ∈ [happyRun1, happyRun2, happyRun3, happyRun4], noBackEdge t t) ∧
      [happyRun1, happyRun2, happyRun3, happyRun4].Perm
        [happyRun1, happyRun2, happyRun3, happyRun4]) ∧
    (runFlow [happyRun1, happyRun2, happyRun3, happyRun4] false).state =
      .success ∧
    (runFlow [happyRun1, happyRun2, happyRun3, happyRun4] false).results.map
      Prod.fst = [happyRun1, happyRun2, happyRun3, happyRun4] := by
  have H := claim_C4_topological_order
    [happyRun1, happyRun2, happyRun3, happyRun4] false
    [happyRun1, happyRun2, happyRun3, happyRun4] rfl
  have hall : ∀ t ∈ [happyRun1, happyRun2, happyRun3, happyRun4],
      t.succeeds = true := by decide
  exact ⟨rfl, H.1, (H.2.1 hall).1, (H.2.1 hall).2⟩

end Taskflow
